import Mathlib

/-!
Verification of the algorithm classifier of
`src/cmd/compile/internal/types/alg.go` (Go compiler, `types` package).

The Go code decides, for each type, which comparison/hashing strategy the
runtime must use (`AlgType`), plus the derived predicates `TypeHasNoAlg`,
`IsComparable`, the diagnostic `IncomparableField`, and the padding check
`IsPaddedField`.

Embedding notes:
* `base.Fatalf` aborts compilation; fallible functions return `Option`,
  with `none` standing for the fatal abort.
* A Go `*Type` node is embedded as `GoType`: it carries the `Noalg` flag,
  its byte width (`int64`, embedded as `Int`), and its shape.  All scalar
  kinds (those carrying no component types) are collapsed into the
  `scalar` constructor over `ScalarKind`; interfaces carry their
  emptiness; arrays carry the element count (`int64`, embedded as `Int`)
  and element type; structs carry the ordered field list.
* `ScalarKind.TNIL` stands for a `Kind` outside the closed set handled by
  the `switch` in `AlgType` (e.g. Go's `TNIL`), reaching `base.Fatalf`.
* A struct field is a triple `(Sym.IsBlank(), Offset, Type)`.
-/

namespace GoAlg

/-- The `AlgKind` enumeration of alg.go (comparison/hashing strategies). -/
inductive AlgKind where
  | ANOEQ
  | AMEM0
  | AMEM8
  | AMEM16
  | AMEM32
  | AMEM64
  | AMEM128
  | ASTRING
  | AINTER
  | ANILINTER
  | AFLOAT32
  | AFLOAT64
  | ACPLX64
  | ACPLX128
  | ANOALG
  | AMEM
  | ASPECIAL
  deriving DecidableEq, Repr

/-- The scalar (component-free) type kinds relevant to `AlgType`, plus
`TNIL`, a representative of the kinds outside the closed set of the
`switch` (reaching `base.Fatalf`). -/
inductive ScalarKind where
  | TANY
  | TFORW
  | TINT8
  | TUINT8
  | TINT16
  | TUINT16
  | TINT32
  | TUINT32
  | TINT64
  | TUINT64
  | TINT
  | TUINT
  | TUINTPTR
  | TBOOL
  | TPTR
  | TCHAN
  | TUNSAFEPTR
  | TFUNC
  | TMAP
  | TFLOAT32
  | TFLOAT64
  | TCOMPLEX64
  | TCOMPLEX128
  | TSTRING
  | TSLICE
  | TNIL
  deriving DecidableEq, Repr

/-- A Go `*Type` node: `Noalg` flag, byte width, shape.  Struct fields are
triples `(Sym.IsBlank(), Offset, Type)` in declaration order. -/
inductive GoType where
  | scalar (noalg : Bool) (width : Int) (k : ScalarKind)
  | inter (noalg : Bool) (width : Int) (empty : Bool)
  | array (noalg : Bool) (width : Int) (n : Int) (elem : GoType)
  | struct (noalg : Bool) (width : Int) (fields : List (Bool × Int × GoType))
  deriving Repr

/-- A struct field: `(Sym.IsBlank(), Offset, Type)`. -/
abbrev Field := Bool × Int × GoType

/-- `f.Sym.IsBlank()` of a field. -/
def Field.blank (f : Field) : Bool := f.1

/-- `f.Offset` of a field. -/
def Field.offset (f : Field) : Int := f.2.1

/-- `f.Type` of a field. -/
def Field.typ (f : Field) : GoType := f.2.2

/-- `t.Noalg()`. -/
def GoType.noalg : GoType → Bool
  | .scalar na _ _ => na
  | .inter na _ _ => na
  | .array na _ _ _ => na
  | .struct na _ _ => na

/-- `t.width` (the byte width computed by the layout engine). -/
def GoType.width : GoType → Int
  | .scalar _ w _ => w
  | .inter _ w _ => w
  | .array _ w _ _ => w
  | .struct _ w _ => w

/-- `t.IsStruct()`. -/
def GoType.isStruct : GoType → Bool
  | .struct _ _ _ => true
  | _ => false

/-- `f.End()` of a field: `f.Offset + f.Type.width`. -/
def Field.endOff (f : Field) : Int := f.offset + f.typ.width

/-- The `AlgType` dispatch for scalar kinds: the non-composite cases of
the `switch` in alg.go.  `none` is the `base.Fatalf` default branch. -/
def scalarAlg : ScalarKind → Option AlgKind
  | .TANY | .TFORW => some .ANOEQ
  | .TINT8 | .TUINT8 | .TINT16 | .TUINT16
  | .TINT32 | .TUINT32 | .TINT64 | .TUINT64
  | .TINT | .TUINT | .TUINTPTR
  | .TBOOL | .TPTR
  | .TCHAN | .TUNSAFEPTR => some .AMEM
  | .TFUNC | .TMAP => some .ANOEQ
  | .TFLOAT32 => some .AFLOAT32
  | .TFLOAT64 => some .AFLOAT64
  | .TCOMPLEX64 => some .ACPLX64
  | .TCOMPLEX128 => some .ACPLX128
  | .TSTRING => some .ASTRING
  | .TSLICE => some .ANOEQ
  | .TNIL => none

/-- `end` in `IsPaddedField`: the offset of field `i+1` when it exists,
else the struct's total width. -/
def nextBoundary (width : Int) (fields : List Field) (i : Nat) : Int :=
  match fields.get? (i + 1) with
  | some g => g.offset
  | none => width

/-- Placeholder field used to totalize the embedded `t.Field(i)` access
(in Go an out-of-range index would panic; every use here is in range). -/
def defaultField : Field := (false, 0, .scalar false 0 .TINT)

/-- The body of `IsPaddedField` once the struct check has passed:
`t.Field(i).End() != end`. -/
def isPaddedFieldCore (width : Int) (fields : List Field) (i : Nat) : Bool :=
  decide (Field.endOff (fields.getD i defaultField) ≠ nextBoundary width fields i)

/-- `IsPaddedField(t, i)`: `none` is the `base.Fatalf` on a non-struct
argument. -/
def IsPaddedField (t : GoType) (i : Nat) : Option Bool :=
  match t with
  | .struct _ width fields => some (isPaddedFieldCore width fields i)
  | _ => none

mutual

/-- `AlgType(t)` of alg.go; `none` is the `base.Fatalf` default branch. -/
def AlgType : GoType → Option AlgKind
  | .scalar na _ k => if na then some .ANOALG else scalarAlg k
  | .inter na _ empty =>
      if na then some .ANOALG
      else if empty then some .ANILINTER else some .AINTER
  | .array na _ n elem =>
      if na then some .ANOALG
      else
        match AlgType elem with
        | none => none
        | some a =>
          if a = .AMEM ∨ a = .ANOEQ ∨ a = .ANOALG then some a
          else if n = 0 then some .AMEM
          else if n = 1 then some a
          else some .ASPECIAL
  | .struct na width fields =>
      if na then some .ANOALG
      else
        match fields with
        | [(b, o, ft)] =>
            if b = false then AlgType ft
            else algStructLoop width [(b, o, ft)] 0 [(b, o, ft)] .AMEM
        | fs => algStructLoop width fs 0 fs .AMEM
termination_by t => sizeOf t
decreasing_by
all_goals simp_wf
all_goals omega

/-- The field scan of the `TSTRUCT` case of `AlgType`: `all` is the full
field list of the struct (used by the padding check), `i` the index of
the head of `rest`, `ret` the accumulator. -/
def algStructLoop (width : Int) (all : List Field) (i : Nat)
    (rest : List Field) (ret : AlgKind) : Option AlgKind :=
  match rest with
  | [] => some ret
  | (b, _, ft) :: fs =>
      match AlgType ft with
      | none => none
      | some a =>
        if a = .ANOEQ ∨ a = .ANOALG then some a
        else
          algStructLoop width all (i + 1) fs
            (if a ≠ .AMEM ∨ b = true ∨ isPaddedFieldCore width all i = true
              then .ASPECIAL else ret)
termination_by sizeOf rest
decreasing_by
all_goals simp_wf
all_goals omega

end

/-- `TypeHasNoAlg(t)`: `AlgType(t) == ANOALG` (fatal propagates). -/
def TypeHasNoAlg (t : GoType) : Option Bool :=
  (AlgType t).map (fun a => decide (a = .ANOALG))

/-- `IsComparable(t)`: `a != ANOEQ && a != ANOALG` (fatal propagates). -/
def IsComparable (t : GoType) : Option Bool :=
  (AlgType t).map (fun a => decide (a ≠ .ANOEQ) && decide (a ≠ .ANOALG))

/-- The field scan of `IncomparableField`. -/
def incomparableLoop : List Field → Option (Option Field)
  | [] => some none
  | f :: fs =>
      match IsComparable (Field.typ f) with
      | none => none
      | some true => incomparableLoop fs
      | some false => some (some f)

/-- `IncomparableField(t)`: returns the first field of struct `t` whose
type is not comparable, `some none` when every field is comparable;
the outer `none` is a fatal abort (`t.Fields()` on a non-struct, or a
fatal inside `IsComparable`). -/
def IncomparableField (t : GoType) : Option (Option Field) :=
  match t with
  | .struct _ _ fields => incomparableLoop fields
  | _ => none

/-! ### Concrete types used in scenarios -/

/-- A `map` type (kind `TMAP`, pointer-sized). -/
def mapType : GoType := .scalar false 8 .TMAP

/-- The `int8` type. -/
def int8Type : GoType := .scalar false 1 .TINT8

/-- The `int32` type. -/
def int32Type : GoType := .scalar false 4 .TINT32

/-- The `int64` type. -/
def int64Type : GoType := .scalar false 8 .TINT64

/-- The `float64` type. -/
def float64Type : GoType := .scalar false 8 .TFLOAT64

/-- An `int64` type carrying the `Noalg` flag. -/
def noalgInt64Type : GoType := .scalar true 8 .TINT64

/-- A struct of two `float64` fields: classified `ASPECIAL` (each field
is comparable but not plain memory). -/
def specialStruct : GoType :=
  .struct false 16 [(false, 0, float64Type), (false, 8, float64Type)]

/-! ### Derived predicates and scan abbreviations -/

/-- A field that does not short-circuit the scan: its type classifies,
and neither as `ANOEQ` nor as `ANOALG`. -/
def fieldOk (f : Field) : Prop :=
  ∃ b, AlgType (Field.typ f) = some b ∧ b ≠ .ANOEQ ∧ b ≠ .ANOALG

/-- The `Special` trigger of one field at index `i`: non-memory
classification, blank, or followed by padding. -/
def fieldSpecial (width : Int) (all : List Field) (i : Nat) (f : Field) :
    Bool :=
  decide (AlgType (Field.typ f) ≠ some .AMEM) || Field.blank f ||
    isPaddedFieldCore width all i

/-- Whether some field of `rest` (whose head has index `i`) triggers the
`Special` downgrade. -/
def anySpecial (width : Int) (all : List Field) : Nat → List Field → Bool
  | _, [] => false
  | i, f :: fs => fieldSpecial width all i f || anySpecial width all (i + 1) fs

/-- Every field of the struct is plain memory, non-blank, and not
followed by padding. -/
def MemClean (width : Int) (fields : List Field) : Prop :=
  ∀ j, j < fields.length →
    AlgType (Field.typ (fields.getD j defaultField)) = some .AMEM ∧
    Field.blank (fields.getD j defaultField) = false ∧
    isPaddedFieldCore width fields j = false

/-- The `float32` type. -/
def float32Type : GoType := .scalar false 4 .TFLOAT32

/-- The semantics-aware tags of §4.1 of the spec: the classifications
needing a semantics-aware routine rather than raw memory. -/
def semanticsAware : AlgKind → Bool
  | .ASTRING | .AINTER | .ANILINTER | .AFLOAT32 | .AFLOAT64
  | .ACPLX64 | .ACPLX128 => true
  | _ => false

mutual

/-- Whether every `Kind` in the type tree lies in the closed set of the
`AlgType` dispatch (no `TNIL`-like kind anywhere). -/
def KindsClosed : GoType → Bool
  | .scalar _ _ k => decide (k ≠ .TNIL)
  | .inter _ _ _ => true
  | .array _ _ _ elem => KindsClosed elem
  | .struct _ _ fields => fieldsClosed fields
termination_by t => sizeOf t
decreasing_by
all_goals simp_wf

/-- `KindsClosed` of every field type. -/
def fieldsClosed : List Field → Bool
  | [] => true
  | (_, _, ft) :: fs => KindsClosed ft && fieldsClosed fs
termination_by fs => sizeOf fs
decreasing_by
all_goals simp_wf
all_goals omega

end

/-! ### Helper lemmas -/

/-- A type whose own `Noalg` flag is set classifies `ANOALG` at once. -/
theorem algType_of_noalg (t : GoType) (h : t.noalg = true) :
    AlgType t = some .ANOALG := by
  cases t <;> simp_all [AlgType.eq_def, GoType.noalg]

/-- The single-non-blank-field branch of the `TSTRUCT` case. -/
theorem algType_struct_single (width : Int) (f : Field)
    (h : Field.blank f = false) :
    AlgType (.struct false width [f]) = AlgType (Field.typ f) := by
  obtain ⟨b, o, ft⟩ := f
  simp only [Field.blank] at h
  subst h
  simp [AlgType, Field.typ]

/-- Every other struct enters the field-scan loop. -/
theorem algType_struct_loop (width : Int) (fields : List Field)
    (h : ∀ f : Field, fields = [f] → Field.blank f = true) :
    AlgType (.struct false width fields) =
      algStructLoop width fields 0 fields .AMEM := by
  match fields with
  | [] => simp [AlgType]
  | [(b, o, ft)] =>
    have hb := h (b, o, ft) rfl
    simp only [Field.blank] at hb
    subst hb
    simp [AlgType]
  | (b₁, o₁, ft₁) :: (b₂, o₂, ft₂) :: fs =>
    simp [AlgType]

/-- Short-circuit: the scan returns the tag of the first `ANOEQ`/`ANOALG`
field, whatever the accumulator and whatever follows that field. -/
theorem algStructLoop_shortcircuit (width : Int) (all : List Field) :
    ∀ (pre : List Field) (i : Nat) (ret : AlgKind) (f : Field)
      (post : List Field) (a : AlgKind),
      (∀ g ∈ pre, fieldOk g) →
      AlgType (Field.typ f) = some a →
      (a = .ANOEQ ∨ a = .ANOALG) →
      algStructLoop width all i (pre ++ f :: post) ret = some a := by
  intro pre
  induction pre with
  | nil =>
    intro i ret f post a _ hf ha
    obtain ⟨b, o, ft⟩ := f
    simp only [Field.typ] at hf
    simp [algStructLoop, hf, ha]
  | cons g pre ih =>
    intro i ret f post a hpre hf ha
    obtain ⟨gb, go, gt⟩ := g
    obtain ⟨b2, hb2, hne, hna⟩ := hpre _ (List.mem_cons_self _ _)
    simp only [Field.typ] at hb2
    simp only [List.cons_append, algStructLoop, hb2, hne, hna, or_self,
      if_false, false_or]
    exact ih _ _ f post a (fun x hx => hpre x (List.mem_cons_of_mem _ hx))
      hf ha

/-- Clean scan: when no field short-circuits, the loop completes and
returns `ASPECIAL` exactly when the accumulator was already `ASPECIAL`
or some field triggers the downgrade; otherwise the accumulator. -/
theorem algStructLoop_clean (width : Int) (all : List Field) :
    ∀ (rest : List Field) (i : Nat) (ret : AlgKind),
      (∀ g ∈ rest, fieldOk g) →
      algStructLoop width all i rest ret =
        some (if ret = .ASPECIAL ∨ anySpecial width all i rest = true
          then .ASPECIAL else ret) := by
  intro rest
  induction rest with
  | nil =>
    intro i ret _
    by_cases h : ret = .ASPECIAL <;> simp [algStructLoop, anySpecial, h]
  | cons g fs ih =>
    intro i ret hok
    obtain ⟨gb, go, gt⟩ := g
    obtain ⟨a, ha, hne, hna⟩ := hok _ (List.mem_cons_self _ _)
    simp only [Field.typ] at ha
    rw [algStructLoop]
    simp only [ha, hne, hna, or_self, ite_false]
    rw [ih _ _ (fun x hx => hok x (List.mem_cons_of_mem _ hx))]
    by_cases hs : a = .AMEM ∧ gb = false ∧ isPaddedFieldCore width all i = false
    · obtain ⟨h1, h2, h3⟩ := hs
      simp [anySpecial, fieldSpecial, Field.typ, Field.blank, h1, h2, h3, ha]
    · have htrig : (a ≠ .AMEM ∨ gb = true ∨ isPaddedFieldCore width all i = true) := by
        rcases Bool.eq_false_or_eq_true gb with hgb | hgb
        · exact Or.inr (Or.inl hgb)
        · rcases Bool.eq_false_or_eq_true (isPaddedFieldCore width all i) with hp | hp
          · exact Or.inr (Or.inr hp)
          · by_cases hA : a = .AMEM
            · exact absurd ⟨hA, hgb, hp⟩ hs
            · exact Or.inl hA
      have hfs : fieldSpecial width all i (gb, go, gt) = true := by
        rcases htrig with h | h | h
        · simp [fieldSpecial, Field.typ, ha, h]
        · simp [fieldSpecial, Field.blank, h]
        · simp [fieldSpecial, h]
      simp [htrig, anySpecial, hfs]

/-- Position-wise reading of `anySpecial = false`. -/
theorem anySpecial_eq_false (width : Int) (all : List Field) :
    ∀ (rest : List Field) (i : Nat),
      anySpecial width all i rest = false ↔
        ∀ j, j < rest.length →
          fieldSpecial width all (i + j) (rest.getD j defaultField) = false := by
  intro rest
  induction rest with
  | nil => intro i; simp [anySpecial]
  | cons f fs ih =>
    intro i
    rw [anySpecial]
    rw [Bool.or_eq_false_iff]
    constructor
    · rintro ⟨h1, h2⟩ j hj
      cases j with
      | zero => simpa using h1
      | succ j' =>
        have hx := (ih (i + 1)).1 h2 j' (by simpa using hj)
        have harith : i + 1 + j' = i + (j' + 1) := by omega
        rw [harith] at hx
        simpa using hx
    · intro h
      refine ⟨by simpa using h 0 (by simp), (ih (i + 1)).2 ?_⟩
      intro j hj
      have hx := h (j + 1) (by simpa using hj)
      have harith : i + (j + 1) = i + 1 + j := by omega
      rw [harith] at hx
      simpa using hx

/-- `anySpecial` over the whole field list is the negation of
`MemClean`. -/
theorem anySpecial_false_iff_memClean (width : Int) (fields : List Field) :
    anySpecial width fields 0 fields = false ↔ MemClean width fields := by
  rw [anySpecial_eq_false]
  unfold MemClean
  constructor
  · intro h j hj
    have hx := h j hj
    rw [Nat.zero_add] at hx
    simp only [fieldSpecial, Bool.or_eq_false_iff, decide_eq_false_iff_not,
      not_not] at hx
    exact ⟨hx.1.1, hx.1.2, hx.2⟩
  · intro h j hj
    obtain ⟨h1, h2, h3⟩ := h j hj
    rw [Nat.zero_add]
    simp only [fieldSpecial, Bool.or_eq_false_iff, decide_eq_false_iff_not,
      not_not]
    exact ⟨⟨h1, h2⟩, h3⟩

/-- Structs with at least two fields always enter the scan loop. -/
theorem algType_struct_to_loop (w : Int) (fields : List Field)
    (h2 : 2 ≤ fields.length) :
    AlgType (.struct false w fields) =
      algStructLoop w fields 0 fields .AMEM := by
  apply algType_struct_loop
  intro f hf
  rw [hf] at h2
  simp at h2

/-- A struct (itself unflagged) whose first `ANOEQ`/`ANOALG` field is
`f` classifies exactly as `f`'s tag (general short-circuit at the
struct level, covering the single-field branch as well). -/
theorem algType_struct_first_bad (w : Int) (pre : List Field) (f : Field)
    (post : List Field) (a : AlgKind)
    (hpre : ∀ g ∈ pre, fieldOk g)
    (hf : AlgType (Field.typ f) = some a)
    (ha : a = .ANOEQ ∨ a = .ANOALG) :
    AlgType (.struct false w (pre ++ f :: post)) = some a := by
  rcases pre with _ | ⟨p, pres⟩
  · rcases post with _ | ⟨q, posts⟩
    · simp only [List.nil_append]
      by_cases hb : Field.blank f = false
      · rw [algType_struct_single w f hb]
        exact hf
      · have hb' : Field.blank f = true := by
          cases hbv : Field.blank f
          · exact absurd hbv hb
          · rfl
        have hloop := algType_struct_loop w [f] (by
          intro g hg
          injection hg with h1 _
          rw [← h1]
          exact hb')
        rw [hloop]
        exact algStructLoop_shortcircuit w [f] [] 0 .AMEM f [] a
          (by simp) hf ha
    · rw [algType_struct_to_loop w ([] ++ f :: q :: posts) (by simp)]
      exact algStructLoop_shortcircuit w _ [] 0 .AMEM f (q :: posts)
        a (by simp) hf ha
  · rw [algType_struct_to_loop w ((p :: pres) ++ f :: post)
      (by simp; omega)]
    exact algStructLoop_shortcircuit w _ (p :: pres) 0 .AMEM f post
      a hpre hf ha

/-! ### Claims -/

/-- C1 counterexample: a zero-length array of a `NoEq` element (here
`[0]map`) classifies `ANOEQ`, not `AMEM`, contradicting "the result is
`Mem` even when the element's classification is `NoEq` or `NoAlg`". -/
theorem zeroLenArray_counterexample :
    AlgType (.array false 0 0 mapType) = some .ANOEQ ∧
    AlgType (.array false 0 0 mapType) ≠ some .AMEM := by
  have h : AlgType (.array false 0 0 mapType) = some .ANOEQ := by
    simp [AlgType, mapType, scalarAlg]
  refine ⟨h, ?_⟩
  rw [h]
  simp

/-- C1 (amended): a zero-length array (own `Noalg` flag unset) whose
element classifies as any tag other than `ANOEQ`/`ANOALG` — in
particular a `Special`-classified struct element — classifies `AMEM`;
an `ANOEQ`/`ANOALG` element classification is instead propagated
unchanged (the early-return in the `TARRAY` case precedes the
element-count switch). -/
theorem zeroLenArray_mem (w : Int) (elem : GoType) (a : AlgKind)
    (ha : AlgType elem = some a) (hne : a ≠ .ANOEQ) (hna : a ≠ .ANOALG) :
    AlgType (.array false w 0 elem) = some .AMEM := by
  rw [AlgType.eq_def]
  by_cases hm : a = .AMEM
  · subst hm
    simp [ha]
  · simp [ha, hm, hne, hna]

/-- Witness for C1 (amended): `[0]specialStruct` classifies `AMEM`,
where `specialStruct` classifies `ASPECIAL`. -/
theorem zeroLenArray_mem_witness :
    AlgType (.array false 0 0 specialStruct) = some .AMEM :=
  zeroLenArray_mem 0 specialStruct .ASPECIAL
    (by simp [specialStruct, float64Type, AlgType, algStructLoop, scalarAlg,
      isPaddedFieldCore, nextBoundary, Field.endOff, Field.offset, Field.typ,
      GoType.width, defaultField])
    (by decide) (by decide)

/-- C2: for a struct type and a valid field index `i` (with the layout
invariant that field `i` does not overrun the next field's offset resp.
the struct's width), `IsPaddedField` reports `true` exactly when field
`i`'s end offset is strictly below the offset of field `i+1` (resp. the
struct width for the last field). -/
theorem isPaddedField_lt_iff (na : Bool) (width : Int)
    (fields : List Field) (i : Nat) (hi : i < fields.length)
    (hwf : Field.endOff (fields.getD i defaultField) ≤
      nextBoundary width fields i) :
    IsPaddedField (.struct na width fields) i = some true ↔
      Field.endOff (fields.getD i defaultField) <
        nextBoundary width fields i := by
  simp only [IsPaddedField, isPaddedFieldCore, Option.some_inj,
    decide_eq_true_eq]
  omega

/-- Witness for C2: in `struct{a int8; b int32}` laid out at offsets
0 and 4 with width 8, field 0 (ending at byte 1) is followed by padding. -/
theorem isPaddedField_lt_iff_witness :
    IsPaddedField
      (.struct false 8 [(false, 0, int8Type), (false, 4, int32Type)]) 0 =
      some true :=
  (isPaddedField_lt_iff false 8 [(false, 0, int8Type), (false, 4, int32Type)]
    0 (by decide) (by decide)).mpr (by decide)

/-- C3 counterexample: `struct{m map; x int64/*Noalg*/}` has a component
classifying `ANOALG` (its second field), yet the struct classifies
`ANOEQ`: the scan short-circuits on the earlier `ANOEQ` field. -/
theorem noalg_component_counterexample :
    AlgType noalgInt64Type = some .ANOALG ∧
    AlgType (.struct false 16
      [(false, 0, mapType), (false, 8, noalgInt64Type)]) = some .ANOEQ ∧
    AlgType (.struct false 16
      [(false, 0, mapType), (false, 8, noalgInt64Type)]) ≠ some .ANOALG := by
  have h : AlgType (.struct false 16
      [(false, 0, mapType), (false, 8, noalgInt64Type)]) = some .ANOEQ := by
    simp [AlgType, algStructLoop, mapType, noalgInt64Type, scalarAlg]
  refine ⟨by simp [AlgType, noalgInt64Type], h, ?_⟩
  rw [h]
  simp

/-- C3 (amended): a type whose own `Noalg` flag is set classifies
`ANOALG` immediately, overriding every other rule; an array (itself
unflagged) whose element classifies `ANOALG` classifies `ANOALG`; and a
struct (itself unflagged) classifies `ANOALG` when it contains a field
classifying `ANOALG` that is not preceded by any `ANOEQ`/`ANOALG`
field (the scan returns the tag of the first such field, so an earlier
`ANOEQ` field wins over a later `ANOALG` one). -/
theorem noalg_propagation :
    (∀ t : GoType, t.noalg = true → AlgType t = some .ANOALG) ∧
    (∀ (w n : Int) (elem : GoType), AlgType elem = some .ANOALG →
      AlgType (.array false w n elem) = some .ANOALG) ∧
    (∀ (w : Int) (pre : List Field) (f : Field) (post : List Field),
      (∀ g ∈ pre, fieldOk g) → AlgType (Field.typ f) = some .ANOALG →
      AlgType (.struct false w (pre ++ f :: post)) = some .ANOALG) := by
  refine ⟨algType_of_noalg, ?_, ?_⟩
  · intro w n elem ha
    rw [AlgType.eq_def]
    simp [ha]
  · intro w pre f post hpre hf
    exact algType_struct_first_bad w pre f post .ANOALG hpre hf (Or.inr rfl)

/-- Witness for C3 (amended): the flag case at the `Noalg` `int64`; the
array case at `[5]noalgInt64`; the struct case at
`struct{x int32; y int64/*Noalg*/}` (the `ANOALG` field is first among
the non-comparable ones). -/
theorem noalg_propagation_witness :
    AlgType (.scalar true 8 .TINT64) = some .ANOALG ∧
    AlgType (.array false 40 5 noalgInt64Type) = some .ANOALG ∧
    AlgType (.struct false 16
      [(false, 0, int32Type), (false, 8, noalgInt64Type)]) = some .ANOALG :=
  ⟨noalg_propagation.1 (.scalar true 8 .TINT64) rfl,
   noalg_propagation.2.1 40 5 noalgInt64Type
     (by simp [noalgInt64Type, AlgType]),
   noalg_propagation.2.2 16 [(false, 0, int32Type)] (false, 8, noalgInt64Type)
     []
     (by
       intro g hg
       simp only [List.mem_singleton] at hg
       subst hg
       exact ⟨.AMEM, by simp [Field.typ, int32Type, AlgType, scalarAlg],
         by decide, by decide⟩)
     (by simp [Field.typ, noalgInt64Type, AlgType])⟩

/-- C4: a struct (itself unflagged) containing at least one field whose
type classifies `ANOEQ` or `ANOALG` classifies exactly as the tag of
the first such field in declaration order; the fields after it are
unconstrained (never examined). -/
theorem struct_first_bad_field (w : Int) (pre : List Field) (f : Field)
    (post : List Field) (a : AlgKind)
    (hpre : ∀ g ∈ pre, fieldOk g)
    (hf : AlgType (Field.typ f) = some a)
    (ha : a = .ANOEQ ∨ a = .ANOALG) :
    AlgType (.struct false w (pre ++ f :: post)) = some a :=
  algType_struct_first_bad w pre f post a hpre hf ha

/-- Witness for C4: `struct{a int32; m map; b int32}` classifies
`ANOEQ` (the tag of the `map` field). -/
theorem struct_first_bad_field_witness :
    AlgType (.struct false 24 [(false, 0, int32Type), (false, 8, mapType),
      (false, 16, int32Type)]) = some .ANOEQ :=
  struct_first_bad_field 24 [(false, 0, int32Type)] (false, 8, mapType)
    [(false, 16, int32Type)] .ANOEQ
    (by
      intro g hg
      simp only [List.mem_singleton] at hg
      subst hg
      exact ⟨.AMEM, by simp [Field.typ, int32Type, AlgType, scalarAlg],
        by decide, by decide⟩)
    (by simp [Field.typ, mapType, AlgType, scalarAlg])
    (Or.inl rfl)

/-- C5: a struct (itself unflagged, not the single-non-blank-field
case, with no `ANOEQ`/`ANOALG` field) classifies `AMEM` when every
field classifies as the generic `AMEM` tag, no field is blank and no
field is followed by padding (`MemClean`), and classifies `ASPECIAL`
otherwise. -/
theorem struct_mem_or_special (w : Int) (fields : List Field)
    (hnotsingle : ∀ f : Field, fields = [f] → Field.blank f = true)
    (hclean : ∀ g ∈ fields, fieldOk g) :
    (MemClean w fields → AlgType (.struct false w fields) = some .AMEM) ∧
    (¬ MemClean w fields →
      AlgType (.struct false w fields) = some .ASPECIAL) := by
  have hloop := algType_struct_loop w fields hnotsingle
  have hc := algStructLoop_clean w fields fields 0 .AMEM hclean
  constructor
  · intro hmem
    rw [hloop, hc]
    have hfalse : anySpecial w fields 0 fields = false :=
      (anySpecial_false_iff_memClean w fields).2 hmem
    simp [hfalse]
  · intro hmem
    rw [hloop, hc]
    have has : anySpecial w fields 0 fields = true := by
      cases hv : anySpecial w fields 0 fields
      · exact absurd ((anySpecial_false_iff_memClean w fields).1 hv) hmem
      · rfl
    simp [has]

/-- Witness for C5: `struct{a int8; /*3 bytes padding*/ b int32}`
(offsets 0 and 4, width 8) classifies `ASPECIAL` though each field is
individually memory-comparable; `struct{a int32; b int32}` (offsets 0
and 4, width 8, no padding) classifies `AMEM`. -/
theorem struct_mem_or_special_witness :
    AlgType (.struct false 8 [(false, 0, int8Type), (false, 4, int32Type)]) =
      some .ASPECIAL ∧
    AlgType (.struct false 8 [(false, 0, int32Type), (false, 4, int32Type)]) =
      some .AMEM := by
  constructor
  · refine (struct_mem_or_special 8
      [(false, 0, int8Type), (false, 4, int32Type)] ?_ ?_).2 ?_
    · intro f hf
      simp at hf
    · intro g hg
      simp only [List.mem_cons, List.mem_singleton, List.not_mem_nil,
        or_false] at hg
      rcases hg with hg | hg <;> subst hg
      · exact ⟨.AMEM, by simp [Field.typ, int8Type, AlgType, scalarAlg],
          by decide, by decide⟩
      · exact ⟨.AMEM, by simp [Field.typ, int32Type, AlgType, scalarAlg],
          by decide, by decide⟩
    · intro h
      exact absurd (h 0 (by norm_num)).2.2 (by decide)
  · refine (struct_mem_or_special 8
      [(false, 0, int32Type), (false, 4, int32Type)] ?_ ?_).1 ?_
    · intro f hf
      simp at hf
    · intro g hg
      simp only [List.mem_cons, List.mem_singleton, List.not_mem_nil,
        or_false] at hg
      rcases hg with hg | hg <;> subst hg <;>
        exact ⟨.AMEM, by simp [Field.typ, int32Type, AlgType, scalarAlg],
          by decide, by decide⟩
    · intro j hj
      simp only [List.length_cons, List.length_nil] at hj
      interval_cases j
      · exact ⟨by simp [Field.typ, int32Type, AlgType, scalarAlg],
          by decide, by decide⟩
      · exact ⟨by simp [Field.typ, int32Type, AlgType, scalarAlg],
          by decide, by decide⟩

/-- C6: a struct (unflagged) with exactly one field, that field
non-blank, classifies exactly as that field's type; an array
(unflagged) of element count 1 whose element classifies as a
semantics-aware tag classifies exactly as its element. -/
theorem single_component_classify :
    (∀ (w : Int) (f : Field), Field.blank f = false →
      AlgType (.struct false w [f]) = AlgType (Field.typ f)) ∧
    (∀ (w : Int) (elem : GoType) (a : AlgKind), AlgType elem = some a →
      semanticsAware a = true →
      AlgType (.array false w 1 elem) = some a) := by
  constructor
  · exact fun w f h => algType_struct_single w f h
  · intro w elem a ha hsem
    rw [AlgType.eq_def]
    have hm : ¬(a = .AMEM ∨ a = .ANOEQ ∨ a = .ANOALG) := by
      cases a <;> simp_all [semanticsAware]
    simp [ha, hm]

/-- Witness for C6: `struct{x float32}` classifies as `float32` does;
`[1]float64` classifies `AFLOAT64`. -/
theorem single_component_classify_witness :
    AlgType (.struct false 4 [(false, 0, float32Type)]) =
      AlgType float32Type ∧
    AlgType (.array false 8 1 float64Type) = some .AFLOAT64 :=
  ⟨single_component_classify.1 4 (false, 0, float32Type) rfl,
   single_component_classify.2 8 float64Type .AFLOAT64
     (by simp [float64Type, AlgType, scalarAlg]) rfl⟩

/-- C7: the derived predicates agree with the classifier: on every type
where classification completes, `TypeHasNoAlg` is true exactly for
`ANOALG`, and `IsComparable` is true exactly when the tag is neither
`ANOEQ` nor `ANOALG` (so `ASPECIAL` counts as comparable). -/
theorem derived_predicates_agree (t : GoType) :
    (TypeHasNoAlg t = some true ↔ AlgType t = some .ANOALG) ∧
    (IsComparable t = some true ↔
      ∃ a, AlgType t = some a ∧ a ≠ .ANOEQ ∧ a ≠ .ANOALG) := by
  constructor
  · unfold TypeHasNoAlg
    cases h : AlgType t with
    | none => simp
    | some a => simp
  · unfold IsComparable
    cases h : AlgType t with
    | none => simp
    | some a =>
      simp only [Option.map_some', Option.some_inj, Bool.and_eq_true,
        decide_eq_true_eq]
      constructor
      · rintro ⟨h1, h2⟩
        exact ⟨a, rfl, h1, h2⟩
      · rintro ⟨b, hb, h1, h2⟩
        subst hb
        exact ⟨h1, h2⟩

/-- C8: `IncomparableField` on a struct returns `none` when every field
type is comparable, and otherwise the first field (in declaration
order) whose type is not comparable — comparability being exactly the
`IsComparable` predicate, so `Special` triggers (padding, blank) play
no role. -/
theorem incomparableField_first (na : Bool) (w : Int) :
    (∀ fields : List Field,
      (∀ g ∈ fields, IsComparable (Field.typ g) = some true) →
      IncomparableField (.struct na w fields) = some none) ∧
    (∀ (pre : List Field) (f : Field) (post : List Field),
      (∀ g ∈ pre, IsComparable (Field.typ g) = some true) →
      IsComparable (Field.typ f) = some false →
      IncomparableField (.struct na w (pre ++ f :: post)) = some (some f)) := by
  constructor
  · intro fields h
    show incomparableLoop fields = some none
    induction fields with
    | nil => rfl
    | cons g fs ih =>
      rw [incomparableLoop, h g (List.mem_cons_self _ _)]
      exact ih fun x hx => h x (List.mem_cons_of_mem _ hx)
  · intro pre f post hpre hf
    show incomparableLoop (pre ++ f :: post) = some (some f)
    induction pre with
    | nil =>
      rw [List.nil_append, incomparableLoop, hf]
    | cons g gs ih =>
      rw [List.cons_append, incomparableLoop, hpre g (List.mem_cons_self _ _)]
      exact ih fun x hx => hpre x (List.mem_cons_of_mem _ hx)

/-- Witness for C8: `struct{a int32; b float64}` has no incomparable
field; in `struct{a int32; m map; b int32}` the `map` field is
returned. -/
theorem incomparableField_first_witness :
    IncomparableField (.struct false 16
      [(false, 0, int32Type), (false, 8, float64Type)]) = some none ∧
    IncomparableField (.struct false 24
      [(false, 0, int32Type), (false, 8, mapType), (false, 16, int32Type)]) =
      some (some (false, 8, mapType)) :=
  ⟨(incomparableField_first false 16).1
      [(false, 0, int32Type), (false, 8, float64Type)]
      (by
        intro g hg
        simp only [List.mem_cons, List.mem_singleton, List.not_mem_nil,
          or_false] at hg
        rcases hg with hg | hg <;> subst hg
        · simp [IsComparable, Field.typ, int32Type, AlgType, scalarAlg]
        · simp [IsComparable, Field.typ, float64Type, AlgType, scalarAlg]),
   (incomparableField_first false 24).2 [(false, 0, int32Type)]
      (false, 8, mapType) [(false, 16, int32Type)]
      (by
        intro g hg
        simp only [List.mem_singleton] at hg
        subst hg
        simp [IsComparable, Field.typ, int32Type, AlgType, scalarAlg])
      (by simp [IsComparable, Field.typ, mapType, AlgType, scalarAlg])⟩

/-- C10: the `Noalg`-flag check precedes the `Kind` dispatch: every
flagged type classifies `ANOALG` with no fatal abort, whatever its
`Kind` — including a `Kind` outside the closed set (see the witness at
kind `TNIL`). -/
theorem noalg_shields_kind (t : GoType) (h : t.noalg = true) :
    AlgType t = some .ANOALG :=
  algType_of_noalg t h

/-- Witness for C10: a `Noalg`-flagged node of the out-of-set kind
`TNIL` still classifies `ANOALG` (no fatal abort). -/
theorem noalg_shields_kind_witness :
    AlgType (.scalar true 0 .TNIL) = some .ANOALG :=
  noalg_shields_kind (.scalar true 0 .TNIL) rfl

/-- On a type tree whose kinds all lie in the closed dispatch set,
`AlgType` never reaches the fatal abort. -/
theorem algType_isSome (t0 : GoType) (h0 : KindsClosed t0 = true) :
    (AlgType t0).isSome = true := by
  refine AlgType.induct
    (fun t => KindsClosed t = true → (AlgType t).isSome = true)
    (fun width all i rest ret => fieldsClosed rest = true →
      (algStructLoop width all i rest ret).isSome = true)
    ?_ ?_ ?_ ?_ ?_ ?_ ?_ ?_ ?_ ?_ ?_ ?_ ?_ ?_ ?_ ?_ ?_ ?_ ?_ t0 h0
  · intro w k _
    rw [AlgType.eq_def]
    simp
  · intro na w k hna h
    have h1 : na = false := by simpa using hna
    subst h1
    rw [AlgType.eq_def]
    simp only [KindsClosed, decide_eq_true_eq] at h
    cases k <;> simp_all [scalarAlg]
  · intro w e _
    rw [AlgType.eq_def]
    simp
  · intro na w hna _
    have h1 : na = false := by simpa using hna
    subst h1
    rw [AlgType.eq_def]
    simp
  · intro na w e hna he _
    have h1 : na = false := by simpa using hna
    have h2 : e = false := by simpa using he
    subst h1
    subst h2
    rw [AlgType.eq_def]
    simp
  · intro w n elem _
    rw [AlgType.eq_def]
    simp
  · intro na w n elem hna hnone ih h
    simp only [KindsClosed] at h
    have hs := ih h
    rw [hnone] at hs
    simp at hs
  · intro na w n elem hna a ha hmem _ _
    have h1 : na = false := by simpa using hna
    subst h1
    rw [AlgType.eq_def]
    simp [ha, hmem]
  · intro na w elem hna a ha hmem _ _
    have h1 : na = false := by simpa using hna
    subst h1
    rw [AlgType.eq_def]
    simp [ha, hmem]
  · intro na w elem hna a ha hmem _ _ _
    have h1 : na = false := by simpa using hna
    subst h1
    rw [AlgType.eq_def]
    simp [ha, hmem]
  · intro na w n elem hna a ha hmem hn0 hn1 _ _
    have h1 : na = false := by simpa using hna
    subst h1
    rw [AlgType.eq_def]
    simp [ha, hmem, hn0, hn1]
  · intro w fields _
    rw [AlgType.eq_def]
    simp
  · intro na w hna o ft ih h
    have h1 : na = false := by simpa using hna
    subst h1
    simp only [KindsClosed, fieldsClosed, Bool.and_eq_true] at h
    rw [AlgType.eq_def]
    simp only []
    exact ih h.1
  · intro na w hna b o ft hb ih h
    have h1 : na = false := by simpa using hna
    subst h1
    have hb1 : b = true := by simpa using hb
    subst hb1
    simp only [KindsClosed] at h
    rw [AlgType.eq_def]
    simp only []
    exact ih h
  · intro na w hna fs hnot ih h
    have h1 : na = false := by simpa using hna
    subst h1
    simp only [KindsClosed] at h
    rw [algType_struct_loop w fs (by
      intro f hf
      obtain ⟨b, o, ft⟩ := f
      exact (hnot b o ft hf).elim)]
    exact ih h
  · intro w all i ret _
    simp [algStructLoop]
  · intro w all i ret b o ft fs hnone ih h
    simp only [fieldsClosed, Bool.and_eq_true] at h
    have hs := ih h.1
    rw [hnone] at hs
    simp at hs
  · intro w all i ret b o ft fs a ha hsc _ _
    rw [algStructLoop]
    simp [ha, hsc]
  · intro w all i ret b o ft fs a ha hnsc _ ih h
    simp only [fieldsClosed, Bool.and_eq_true] at h
    rw [algStructLoop]
    simp only [ha, hnsc, or_self, ite_false]
    simpa using ih h.2

/-- C9: `AlgType` is total — it returns a tag on every type tree whose
kinds all lie in the closed dispatch set, reaching the fatal abort only
at an out-of-set kind; and `IsPaddedField` fatal-aborts exactly when
its argument is not a struct. -/
theorem classify_totality :
    (∀ t : GoType, KindsClosed t = true → ∃ a, AlgType t = some a) ∧
    (∀ (t : GoType) (i : Nat),
      IsPaddedField t i = none ↔ t.isStruct = false) := by
  constructor
  · intro t h
    exact Option.isSome_iff_exists.mp (algType_isSome t h)
  · intro t i
    cases t <;> simp [IsPaddedField, GoType.isStruct]

/-- Witness for C9: classification completes on the closed-kind
`specialStruct`; the padding check aborts on the non-struct `int32`. -/
theorem classify_totality_witness :
    (∃ a, AlgType specialStruct = some a) ∧
    (IsPaddedField int32Type 0 = none ↔
      GoType.isStruct int32Type = false) :=
  ⟨classify_totality.1 specialStruct
    (by simp [specialStruct, float64Type, KindsClosed, fieldsClosed]),
   classify_totality.2 int32Type 0⟩

end GoAlg
